import Mathlib

/-!
# Verification of the WIPERRtube drop and flight model (`freefall.py`)

This file gives a shallow embedding of the single source file `freefall.py`:

* the derived-parameter chain (source lines 42-63): geometry, masses, terminal
  velocity, water-jet exit velocity, ejection rates and thrust;
* the fixed-timestep deceleration loop (source lines 70-100) together with the
  post-loop outcome classification (source lines 102-103, 107, 118).

The loop uses only field operations and order comparisons, so it is embedded
generically over a `LinearOrderedField K`.  Instantiating `K := ℚ` makes every
definition kernel-computable (used to evaluate concrete runs), while the
actual program's run corresponds to `K := ℝ` with the derived parameters.
`π` and the square root are passed explicitly to the derived-parameter
definitions, so at `K := ℝ` they are `Real.pi` and `Real.sqrt`.

The Python `while` loop is embedded as a step function `step` on an explicit
loop state plus a fuel-indexed iterate `run`; a state whose `exitReason` is set
is absorbing (the loop has ended).  The source leaves `current_mass` and
`acceleration` unassigned before the first iteration; the embedding initializes
those fields to `0` and every theorem that reads them is guarded so that they
have been assigned.
-/

set_option maxHeartbeats 1000000

namespace Wiperr

variable {K : Type} [LinearOrderedField K]

/-! ## Physical and environmental constants (source lines 16-19) -/

/-- `water_density = 1000` (source line 16). -/
def water_density : K := 1000

/-- `g = 9.80665` (source line 17). -/
def g : K := 980665 / 100000

/-- `air_density = 1.0582` (source line 19). -/
def air_density : K := 10582 / 10000

/-! ## Design and operational parameters (source lines 28-40)

The spec treats these as the immutable `VehicleConfiguration` inputs; the
source hardcodes one instance of them (`defaultConfig` below). -/

structure Config (K : Type) where
  tube_diameter : K
  tube_height : K
  pressure_tube_diameter : K
  pressure_tube_headspace : K
  head_space_pressure : K
  dry_mass : K
  paddle_width : K
  paddle_length : K
  number_of_paddles : K
  vent_nozzle_diameter : K
  number_of_vents : K
  drop_altitude : K
  venting_altitude : K
  deriving DecidableEq

/-- The literal constants of source lines 28-40. -/
def defaultConfig : Config K where
  tube_diameter := 3 / 4
  tube_height := 7 / 4
  pressure_tube_diameter := 1 / 2
  pressure_tube_headspace := 1 / 2
  head_space_pressure := 2600000
  dry_mass := 68
  paddle_width := 2 / 5
  paddle_length := 3 / 5
  number_of_paddles := 4
  vent_nozzle_diameter := 1 / 50
  number_of_vents := 6
  drop_altitude := 3048
  venting_altitude := 340

/-! ## Calculated parameters (source lines 42-63)

`pi` and `sqrt` are explicit arguments; the program uses `math.pi` and
`math.sqrt`, i.e. `Real.pi` and `Real.sqrt` at `K := ℝ`. -/

/-- Source line 43. -/
def head_space_volume (pi : K) (c : Config K) : K :=
  pi * (c.pressure_tube_diameter / 2) ^ 2 * c.pressure_tube_headspace

/-- Source line 44. -/
def tube_volume (pi : K) (c : Config K) : K :=
  pi * (c.tube_diameter / 2) ^ 2 * c.tube_height

/-- Source line 45. -/
def water_volume (pi : K) (c : Config K) : K :=
  tube_volume pi c - head_space_volume pi c

/-- Source line 46. -/
def water_mass (pi : K) (c : Config K) : K :=
  water_volume pi c * water_density

/-- Source line 47. -/
def wet_mass (pi : K) (c : Config K) : K :=
  c.dry_mass + water_mass pi c

/-- Source line 48. -/
def paddle_area (c : Config K) : K :=
  c.paddle_width * c.paddle_length * c.number_of_paddles

/-- Source line 52. -/
def drag_coefficient_area (pi : K) (c : Config K) : K :=
  paddle_area c + pi * (c.tube_diameter / 2) ^ 2

/-- Source line 53. -/
def drag_coefficient : K := 1

/-- Source line 54. -/
def terminal_velocity (pi : K) (sqrt : K → K) (c : Config K) : K :=
  sqrt ((2 * wet_mass pi c * g) / (air_density * drag_coefficient * drag_coefficient_area pi c))

/-- Source line 59. -/
def water_exit_velocity (sqrt : K → K) (c : Config K) : K :=
  sqrt (2 * c.head_space_pressure / water_density)

/-- Source line 60 (per-vent mass ejection rate). -/
def water_mass_ejection_rate (pi : K) (sqrt : K → K) (c : Config K) : K :=
  pi * (c.vent_nozzle_diameter / 2) ^ 2 * water_exit_velocity sqrt c * water_density

/-- Source line 61. -/
def total_water_mass_ejection_rate (pi : K) (sqrt : K → K) (c : Config K) : K :=
  water_mass_ejection_rate pi sqrt c * c.number_of_vents

/-- Source line 62. -/
def thrust_per_vent (pi : K) (sqrt : K → K) (c : Config K) : K :=
  water_mass_ejection_rate pi sqrt c * water_exit_velocity sqrt c

/-- Source line 63. -/
def total_thrust (pi : K) (sqrt : K → K) (c : Config K) : K :=
  thrust_per_vent pi sqrt c * c.number_of_vents

/-! ## Spec-modelled configuration check

Modelled from the spec: the spec (sections 4.2 and 7) prescribes a
`ConfigurationError` raised when the computed water volume is negative.  The
source contains no such check; this guarded derivation follows the spec's
words and exists only to be compared with the source's unconditional one. -/

inductive CheckedVolume (K : Type) where
  | ok (volume : K)
  | configurationError
  deriving DecidableEq

/-- Modelled from the spec: "fails with `ConfigurationError` if computed water
volume is negative (headspace too large for tube)".  Absent from the source. -/
def checked_water_volume (pi : K) (c : Config K) : CheckedVolume K :=
  if water_volume pi c < 0 then .configurationError else .ok (water_volume pi c)

/-! ## The deceleration simulation (source lines 70-103) -/

/-- The constant quantities read by the loop body: the derived parameters of
source lines 47, 61, 63 together with `g` (line 17) and `dt` (line 71). -/
structure Params (K : Type) where
  wet_mass : K
  dry_mass : K
  total_thrust : K
  total_water_mass_ejection_rate : K
  g : K
  dt : K
  deriving DecidableEq

/-- One row appended to the five parallel plotting lists (source lines
96-100); the five fields correspond, in order, to `time_values`,
`altitude_values` (altitude divided by 10), `velocity_values`,
`water_remaining_values` (`max 0 (mass - dry_mass)` divided by 10) and
`acceleration_values`. -/
structure Entry (K : Type) where
  time : K
  altitude : K
  velocity : K
  water_remaining : K
  acceleration : K
  deriving DecidableEq

/-- How the loop ended: the `while` condition `current_altitude > 0` failing
(line 82), the `break` on water depletion (line 86), or the `break` on hover
(line 94). -/
inductive ExitReason where
  | altitude
  | waterDepleted
  | hover
  deriving DecidableEq

/-- The mutable state of the loop: `t`, `current_velocity`,
`current_altitude`, `current_mass`, `acceleration`, the trace lists, and
whether (and how) the loop has ended.  `mass` and `accel` are unassigned in
the source before the first iteration; they start at `0` here and theorems
reading them are guarded. -/
structure LoopState (K : Type) where
  t : K
  v : K
  alt : K
  mass : K
  accel : K
  trace : List (Entry K)
  exitReason : Option ExitReason
  deriving DecidableEq

/-- Source line 83: `t += dt`. -/
def next_t (p : Params K) (s : LoopState K) : K := s.t + p.dt

/-- Source line 84: `current_mass = wet_mass - total_water_mass_ejection_rate * t`
(with `t` already advanced). -/
def next_mass (p : Params K) (s : LoopState K) : K :=
  p.wet_mass - p.total_water_mass_ejection_rate * next_t p s

/-- Source lines 88-89: `acceleration = (total_thrust - current_mass * g) / current_mass`. -/
def next_accel (p : Params K) (s : LoopState K) : K :=
  (p.total_thrust - next_mass p s * p.g) / next_mass p s

/-- Source line 90: `current_velocity -= acceleration * dt`. -/
def next_v (p : Params K) (s : LoopState K) : K :=
  s.v - next_accel p s * p.dt

/-- Source line 91: `current_altitude -= current_velocity * dt` with the
already-updated velocity. -/
def next_alt (p : Params K) (s : LoopState K) : K :=
  s.alt - next_v p s * p.dt

/-- Source lines 96-100: the row appended to the plotting lists on an
accepted step.  `altitude_values` stores `current_altitude / 10` (line 97)
and `water_remaining_values` stores `max(0, current_mass - dry_mass) / 10`
(line 99); the other three values are unscaled. -/
def stepEntry (p : Params K) (s : LoopState K) : Entry K :=
  { time := next_t p s
    altitude := next_alt p s / 10
    velocity := next_v p s
    water_remaining := max 0 (next_mass p s - p.dry_mass) / 10
    acceleration := next_accel p s }

/-- One pass through the `while` loop (source lines 82-100).  An ended state
is absorbing.  The checks appear in source order: the loop condition
`current_altitude > 0`, the water-depletion `break` (before the force
computation), and the hover `break` (before the trace appends). -/
def step (p : Params K) (s : LoopState K) : LoopState K :=
  if s.exitReason = none then
    if 0 < s.alt then
      if next_mass p s ≤ p.dry_mass then
        { s with t := next_t p s, mass := next_mass p s,
                 exitReason := some .waterDepleted }
      else if next_v p s ≤ 0 then
        { t := next_t p s, v := next_v p s, alt := next_alt p s,
          mass := next_mass p s, accel := next_accel p s,
          trace := s.trace, exitReason := some .hover }
      else
        { t := next_t p s, v := next_v p s, alt := next_alt p s,
          mass := next_mass p s, accel := next_accel p s,
          trace := s.trace ++ [stepEntry p s],
          exitReason := none }
    else
      { s with exitReason := some .altitude }
  else s

/-- `n` passes through the loop. -/
def run (p : Params K) (s : LoopState K) : ℕ → LoopState K
  | 0 => s
  | n + 1 => step p (run p s n)

/-- The state just before the loop (source lines 70-80): `t = 0`, velocity is
the freefall terminal velocity, altitude is the venting altitude, the trace
lists are empty. -/
def initState (v0 alt0 : K) : LoopState K :=
  { t := 0, v := v0, alt := alt0, mass := 0, accel := 0, trace := [],
    exitReason := none }

/-- Source line 102: `water_remaining = max(0, current_mass - dry_mass)`. -/
def water_remaining (p : Params K) (s : LoopState K) : K :=
  max 0 (s.mass - p.dry_mass)

/-- Source line 103: `hover = (current_altitude >= 0 and water_remaining)`;
a Python float is truthy exactly when it is nonzero. -/
abbrev hover (p : Params K) (s : LoopState K) : Prop :=
  0 ≤ s.alt ∧ water_remaining p s ≠ 0

/-- The two reported outcomes (source lines 107 and 120-123): `SUCCESS`/hover
versus `FAIL`/impact. -/
inductive FlightOutcome where
  | Hover
  | Impact
  deriving DecidableEq

/-- The outcome classification, driven entirely by the `hover` flag of source
line 103. -/
def outcome (p : Params K) (s : LoopState K) : FlightOutcome :=
  if hover p s then .Hover else .Impact

/-- Source line 118 reports `acceleration / g` as the peak deceleration. -/
def peak_deceleration_report (p : Params K) (s : LoopState K) : K :=
  s.accel / p.g

/-- The simulation parameters the source builds from a configuration
(lines 47, 61, 63, 17, 71). -/
def simParams (pi : K) (sqrt : K → K) (c : Config K) : Params K :=
  { wet_mass := wet_mass pi c
    dry_mass := c.dry_mass
    total_thrust := total_thrust pi sqrt c
    total_water_mass_ejection_rate := total_water_mass_ejection_rate pi sqrt c
    g := g
    dt := 1 / 10 }

/-- The whole program's simulation at a configuration: the loop run from
`current_velocity = terminal_velocity`, `current_altitude = venting_altitude`
(source lines 72-73).  The program itself is `configRun Real.pi Real.sqrt c`.
Note that `Real.sqrt` totalizes `math.sqrt` by returning `0` on negative
radicands, where the source would instead raise a `ValueError` at line 54 or
59 before the loop; statements about `configRun` at a concrete configuration
therefore describe the source only when both radicands are nonnegative,
which the statement must establish separately (as the C6 counterexample
does). -/
def configRun (pi : K) (sqrt : K → K) (c : Config K) (n : ℕ) : LoopState K :=
  run (simParams pi sqrt c)
    (initState (terminal_velocity pi sqrt c) c.venting_altitude) n

/-- Closed form for `current_mass` after the `k`-th time advance:
`wet_mass - rate * (k * dt)`. -/
def massAt (p : Params K) (k : ℕ) : K :=
  p.wet_mass - p.total_water_mass_ejection_rate * ((k : K) * p.dt)

/-- Closed form for the acceleration computed in iteration `k`. -/
def accelAt (p : Params K) (k : ℕ) : K :=
  (p.total_thrust - massAt p k * p.g) / massAt p k

/-! ## Concrete instances used by the claim checks

Rational parameter sets for the generic loop; each is used by exactly one
claim's counterexample or witness.  `badConfig` is the default configuration
with a tube so thin that the computed water volume is negative. -/

def pC1 : Params ℚ where
  wet_mass := 10
  dry_mass := 1
  total_thrust := 90
  total_water_mass_ejection_rate := 1
  g := 10
  dt := 1

def pC2 : Params ℚ where
  wet_mass := 10
  dry_mass := 1
  total_thrust := 90
  total_water_mass_ejection_rate := 1
  g := 10
  dt := 1

def pC2W : Params ℚ where
  wet_mass := 10
  dry_mass := 1
  total_thrust := 0
  total_water_mass_ejection_rate := 1
  g := 1
  dt := 1

def pC4 : Params ℚ where
  wet_mass := 10
  dry_mass := 1
  total_thrust := 90
  total_water_mass_ejection_rate := 7
  g := 10
  dt := 1

def pC4W : Params ℚ where
  wet_mass := 10
  dry_mass := 1
  total_thrust := 5
  total_water_mass_ejection_rate := 1
  g := 10
  dt := 1

def pC5 : Params ℚ where
  wet_mass := 10
  dry_mass := 1
  total_thrust := 0
  total_water_mass_ejection_rate := 1
  g := 1
  dt := 1

def pC5W : Params ℚ where
  wet_mass := 3
  dry_mass := 1
  total_thrust := 0
  total_water_mass_ejection_rate := 1
  g := 1
  dt := 1

def pC7W : Params ℚ where
  wet_mass := 2
  dry_mass := 1
  total_thrust := 0
  total_water_mass_ejection_rate := 1
  g := 1
  dt := 1

def pC8 : Params ℚ where
  wet_mass := 10
  dry_mass := 1
  total_thrust := 0
  total_water_mass_ejection_rate := 1
  g := 1
  dt := 1

def pC8W : Params ℚ where
  wet_mass := 100
  dry_mass := 1
  total_thrust := 0
  total_water_mass_ejection_rate := 1
  g := 1
  dt := 1

def pC9W : Params ℚ where
  wet_mass := 100
  dry_mass := 1
  total_thrust := 50
  total_water_mass_ejection_rate := 1
  g := 1
  dt := 1

def pC10W : Params ℚ where
  wet_mass := 10
  dry_mass := 1
  total_thrust := 60
  total_water_mass_ejection_rate := 7
  g := 10
  dt := 1

/-- The default configuration with the tube narrowed to `0.25` m.  Its water
volume is `-π/256 < 0` (headspace exceeds tube volume), yet its wet mass,
`68 - 1000·π/256 ≈ 55.7` kg, is still positive, so both square roots the
source evaluates before the loop (lines 54 and 59) have nonnegative
radicands: `math.sqrt` is defined there and the program reaches the loop. -/
def badConfig : Config K :=
  { defaultConfig with tube_diameter := 1 / 4 }

/-! ## Elementary facts about `step` and `run` -/

theorem step_of_exited (p : Params K) (s : LoopState K) (h : ¬ s.exitReason = none) :
    step p s = s := by
  unfold step; rw [if_neg h]

theorem step_of_altitude (p : Params K) (s : LoopState K)
    (h0 : s.exitReason = none) (ha : ¬ 0 < s.alt) :
    step p s = { s with exitReason := some .altitude } := by
  unfold step; rw [if_pos h0, if_neg ha]

theorem step_of_depleted (p : Params K) (s : LoopState K)
    (h0 : s.exitReason = none) (ha : 0 < s.alt) (hm : next_mass p s ≤ p.dry_mass) :
    step p s = { s with t := next_t p s, mass := next_mass p s,
                        exitReason := some .waterDepleted } := by
  unfold step; rw [if_pos h0, if_pos ha, if_pos hm]

theorem step_of_hover (p : Params K) (s : LoopState K)
    (h0 : s.exitReason = none) (ha : 0 < s.alt)
    (hm : ¬ next_mass p s ≤ p.dry_mass) (hv : next_v p s ≤ 0) :
    step p s = { t := next_t p s, v := next_v p s, alt := next_alt p s,
                 mass := next_mass p s, accel := next_accel p s,
                 trace := s.trace, exitReason := some .hover } := by
  unfold step; rw [if_pos h0, if_pos ha, if_neg hm, if_pos hv]

theorem step_of_accepted (p : Params K) (s : LoopState K)
    (h0 : s.exitReason = none) (ha : 0 < s.alt)
    (hm : ¬ next_mass p s ≤ p.dry_mass) (hv : ¬ next_v p s ≤ 0) :
    step p s = { t := next_t p s, v := next_v p s, alt := next_alt p s,
                 mass := next_mass p s, accel := next_accel p s,
                 trace := s.trace ++ [stepEntry p s], exitReason := none } := by
  unfold step; rw [if_pos h0, if_pos ha, if_neg hm, if_neg hv]

theorem run_succ (p : Params K) (s : LoopState K) (n : ℕ) :
    run p s (n + 1) = step p (run p s n) := rfl

/-- Once the loop has ended, further fuel does not change the state. -/
theorem run_absorb (p : Params K) (s : LoopState K) (n : ℕ)
    (h : ¬ (run p s n).exitReason = none) :
    ∀ m, run p s (n + m) = run p s n := by
  intro m
  induction m with
  | zero => rfl
  | succ m ih =>
      rw [← Nat.add_assoc, run_succ, ih, step_of_exited _ _ h]

/-- If the state is still running after a pass, it was running before and the
pass appended exactly one entry to the trace. -/
theorem step_running_elim (p : Params K) (s : LoopState K)
    (h : (step p s).exitReason = none) :
    s.exitReason = none ∧ (step p s).trace = s.trace ++ [stepEntry p s] := by
  by_cases h0 : s.exitReason = none
  · by_cases ha : 0 < s.alt
    · by_cases hm : next_mass p s ≤ p.dry_mass
      · rw [step_of_depleted p s h0 ha hm] at h; simp at h
      · by_cases hv : next_v p s ≤ 0
        · rw [step_of_hover p s h0 ha hm hv] at h; simp at h
        · rw [step_of_accepted p s h0 ha hm hv]; exact ⟨h0, rfl⟩
    · rw [step_of_altitude p s h0 ha] at h; simp at h
  · rw [step_of_exited p s h0] at h; exact absurd h h0

/-- A run that is still going after `n` passes has accepted every one of
them: the trace holds exactly `n` entries. -/
theorem run_length (p : Params K) (v0 alt0 : K) (n : ℕ)
    (h : (run p (initState v0 alt0) n).exitReason = none) :
    (run p (initState v0 alt0) n).trace.length = n := by
  induction n with
  | zero => rfl
  | succ n ih =>
      rw [run_succ] at h ⊢
      obtain ⟨h0, htr⟩ := step_running_elim _ _ h
      rw [htr, List.length_append, ih h0]
      rfl

/-! ## List index helpers -/

theorem get_append_lt {α : Type} (l : List α) (e : α) (i : ℕ) (h : i < l.length)
    (h2 : i < (l ++ [e]).length) : (l ++ [e]).get ⟨i, h2⟩ = l.get ⟨i, h⟩ := by
  simp only [List.get_eq_getElem]
  exact List.getElem_append_left h

theorem get_append_len {α : Type} (l : List α) (e : α)
    (h2 : l.length < (l ++ [e]).length) : (l ++ [e]).get ⟨l.length, h2⟩ = e := by
  simp only [List.get_eq_getElem]
  simp

theorem getLast_append_one {α : Type} (l : List α) (e : α) (h : l ++ [e] ≠ []) :
    (l ++ [e]).getLast h = e :=
  List.getLast_append _

theorem getLast_get {α : Type} (l : List α) (h : l ≠ []) :
    l.getLast h = l.get ⟨l.length - 1, Nat.sub_lt (List.length_pos.mpr h) one_pos⟩ := by
  simp only [List.get_eq_getElem]
  exact List.getLast_eq_getElem l h

/-! ## The loop invariant -/

/-- `next_mass` in closed form when the current time is `L * dt`. -/
theorem next_mass_eq (p : Params K) (s : LoopState K) (L : ℕ)
    (ht : s.t = (L : K) * p.dt) : next_mass p s = massAt p (L + 1) := by
  simp only [next_mass, next_t, massAt, ht]
  push_cast
  ring

/-- `next_accel` in closed form when the current time is `L * dt`. -/
theorem next_accel_eq (p : Params K) (s : LoopState K) (L : ℕ)
    (ht : s.t = (L : K) * p.dt) : next_accel p s = accelAt p (L + 1) := by
  simp only [next_accel, accelAt, next_mass_eq p s L ht]

/-- Everything the claims need about a reachable loop state, phrased over the
trace (indices `i` count accepted steps from `0`) and the live fields. -/
structure Inv (p : Params K) (s : LoopState K) : Prop where
  time_i : ∀ i (h : i < s.trace.length),
    (s.trace.get ⟨i, h⟩).time = ((i : K) + 1) * p.dt
  accel_i : ∀ i (h : i < s.trace.length),
    (s.trace.get ⟨i, h⟩).acceleration = accelAt p (i + 1)
  vel_i : ∀ i (h : i < s.trace.length), 0 < (s.trace.get ⟨i, h⟩).velocity
  mass_i : ∀ i (_ : i < s.trace.length), p.dry_mass < massAt p (i + 1)
  alt_i : ∀ i (h : i + 1 < s.trace.length),
    (s.trace.get ⟨i + 1, h⟩).altitude
      = (s.trace.get ⟨i, Nat.lt_of_succ_lt h⟩).altitude
        - (s.trace.get ⟨i + 1, h⟩).velocity * p.dt / 10
  t_run : s.exitReason = none → s.t = (s.trace.length : K) * p.dt
  alt_run : s.exitReason = none → ∀ h : s.trace ≠ [],
    s.alt = 10 * (s.trace.getLast h).altitude
  mass_run : s.exitReason = none → s.trace ≠ [] → s.mass = massAt p s.trace.length
  t_alt_exit : s.exitReason = some .altitude → s.t = (s.trace.length : K) * p.dt
  t_brk : s.exitReason = some .waterDepleted ∨ s.exitReason = some .hover →
    s.t = ((s.trace.length : K) + 1) * p.dt
  accel_last : ¬ s.exitReason = some .hover → ∀ h : s.trace ≠ [],
    s.accel = (s.trace.getLast h).acceleration
  hover_facts : s.exitReason = some .hover →
    s.accel = (p.total_thrust - s.mass * p.g) / s.mass ∧
    s.mass = massAt p (s.trace.length + 1) ∧ 0 < s.alt ∧ s.v ≤ 0
  depl_facts : s.exitReason = some .waterDepleted →
    s.mass = massAt p (s.trace.length + 1) ∧ s.mass ≤ p.dry_mass

theorem inv_init (p : Params K) (v0 alt0 : K) : Inv p (initState v0 alt0) where
  time_i := fun i h => absurd h (by simp [initState])
  accel_i := fun i h => absurd h (by simp [initState])
  vel_i := fun i h => absurd h (by simp [initState])
  mass_i := fun i h => absurd h (by simp [initState])
  alt_i := fun i h => absurd h (by simp [initState])
  t_run := fun _ => by simp [initState]
  alt_run := fun _ h => absurd rfl h
  mass_run := fun _ h => absurd rfl h
  t_alt_exit := fun h => by simp [initState] at h
  t_brk := fun h => by simp [initState] at h
  accel_last := fun _ h => absurd rfl h
  hover_facts := fun h => by simp [initState] at h
  depl_facts := fun h => by simp [initState] at h

theorem inv_step (p : Params K) (s : LoopState K) (hdt : 0 ≤ p.dt) (h : Inv p s) :
    Inv p (step p s) := by
  by_cases h0 : s.exitReason = none
  · by_cases ha : 0 < s.alt
    · by_cases hm : next_mass p s ≤ p.dry_mass
      · -- water-depletion exit (source line 86)
        rw [step_of_depleted p s h0 ha hm]
        exact
          { time_i := h.time_i
            accel_i := h.accel_i
            vel_i := h.vel_i
            mass_i := h.mass_i
            alt_i := h.alt_i
            t_run := fun hcon => Option.noConfusion hcon
            alt_run := fun hcon => Option.noConfusion hcon
            mass_run := fun hcon => Option.noConfusion hcon
            t_alt_exit := fun hcon => by simp at hcon
            t_brk := fun _ => by
              show next_t p s = ((s.trace.length : K) + 1) * p.dt
              simp only [next_t, h.t_run h0]
              ring
            accel_last := fun _ hne => h.accel_last (by simp [h0]) hne
            hover_facts := fun hcon => by simp at hcon
            depl_facts := fun _ =>
              ⟨next_mass_eq p s s.trace.length (h.t_run h0), hm⟩ }
      · by_cases hv : next_v p s ≤ 0
        · -- hover exit (source line 94)
          rw [step_of_hover p s h0 ha hm hv]
          exact
            { time_i := h.time_i
              accel_i := h.accel_i
              vel_i := h.vel_i
              mass_i := h.mass_i
              alt_i := h.alt_i
              t_run := fun hcon => Option.noConfusion hcon
              alt_run := fun hcon => Option.noConfusion hcon
              mass_run := fun hcon => Option.noConfusion hcon
              t_alt_exit := fun hcon => by simp at hcon
              t_brk := fun _ => by
                show next_t p s = ((s.trace.length : K) + 1) * p.dt
                simp only [next_t, h.t_run h0]
                ring
              accel_last := fun hne _ => absurd rfl hne
              hover_facts := fun _ => by
                refine ⟨rfl, next_mass_eq p s s.trace.length (h.t_run h0), ?_, hv⟩
                show 0 < next_alt p s
                have hnp : next_v p s * p.dt ≤ 0 :=
                  mul_nonpos_iff.mpr (Or.inr ⟨hv, hdt⟩)
                simp only [next_alt]
                linarith
              depl_facts := fun hcon => by simp at hcon }
        · -- accepted step (source lines 96-100)
          rw [step_of_accepted p s h0 ha hm hv]
          have ht := h.t_run h0
          refine
            { time_i := ?_
              accel_i := ?_
              vel_i := ?_
              mass_i := ?_
              alt_i := ?_
              t_run := ?_
              alt_run := ?_
              mass_run := ?_
              t_alt_exit := fun hcon => by simp at hcon
              t_brk := fun hcon => by rcases hcon with hc | hc <;> simp at hc
              accel_last := ?_
              hover_facts := fun hcon => by simp at hcon
              depl_facts := fun hcon => by simp at hcon }
          · intro i hi
            by_cases hlt : i < s.trace.length
            · rw [get_append_lt s.trace (stepEntry p s) i hlt hi]
              exact h.time_i i hlt
            · have hi1 : i < s.trace.length + 1 := by simpa using hi
              have heq : i = s.trace.length := by omega
              subst heq
              rw [get_append_len]
              show next_t p s = ((s.trace.length : K) + 1) * p.dt
              simp only [next_t, ht]
              ring
          · intro i hi
            by_cases hlt : i < s.trace.length
            · rw [get_append_lt s.trace (stepEntry p s) i hlt hi]
              exact h.accel_i i hlt
            · have hi1 : i < s.trace.length + 1 := by simpa using hi
              have heq : i = s.trace.length := by omega
              subst heq
              rw [get_append_len]
              exact next_accel_eq p s s.trace.length ht
          · intro i hi
            by_cases hlt : i < s.trace.length
            · rw [get_append_lt s.trace (stepEntry p s) i hlt hi]
              exact h.vel_i i hlt
            · have hi1 : i < s.trace.length + 1 := by simpa using hi
              have heq : i = s.trace.length := by omega
              subst heq
              rw [get_append_len]
              exact lt_of_not_le hv
          · intro i hi
            by_cases hlt : i < s.trace.length
            · exact h.mass_i i hlt
            · have hi1 : i < s.trace.length + 1 := by simpa using hi
              have heq : i = s.trace.length := by omega
              subst heq
              have := lt_of_not_le hm
              rwa [next_mass_eq p s s.trace.length ht] at this
          · intro i hi
            by_cases hlt : i + 1 < s.trace.length
            · have hlt0 : i < s.trace.length := Nat.lt_of_succ_lt hlt
              rw [get_append_lt s.trace (stepEntry p s) (i + 1) hlt hi,
                get_append_lt s.trace (stepEntry p s) i hlt0 (Nat.lt_of_succ_lt hi)]
              exact h.alt_i i hlt
            · have hi1 : i + 1 < s.trace.length + 1 := by simpa using hi
              have heq : i + 1 = s.trace.length := by omega
              have hne : s.trace ≠ [] := by
                intro hnil
                rw [hnil] at heq
                simp at heq
              have hi0 : i < s.trace.length := by omega
              have hfin : (⟨i + 1, hi⟩ : Fin (s.trace ++ [stepEntry p s]).length)
                  = ⟨s.trace.length, by simp⟩ := Fin.ext heq
              rw [hfin, get_append_len,
                get_append_lt s.trace (stepEntry p s) i hi0 (Nat.lt_of_succ_lt hi)]
              have halt := h.alt_run h0 hne
              rw [getLast_get] at halt
              have hfin2 : (⟨s.trace.length - 1,
                  Nat.sub_lt (List.length_pos.mpr hne) one_pos⟩ : Fin s.trace.length)
                  = ⟨i, hi0⟩ := Fin.ext (show s.trace.length - 1 = i by omega)
              rw [hfin2] at halt
              show next_alt p s / 10
                  = (s.trace.get ⟨i, hi0⟩).altitude - next_v p s * p.dt / 10
              simp only [next_alt, halt]
              ring
          · intro _
            show next_t p s = (((s.trace ++ [stepEntry p s]).length : ℕ) : K) * p.dt
            simp only [List.length_append, List.length_singleton, next_t, ht]
            push_cast
            ring
          · intro _ hne
            show next_alt p s = 10 * (((s.trace ++ [stepEntry p s]).getLast hne).altitude)
            rw [getLast_append_one]
            show next_alt p s = 10 * (next_alt p s / 10)
            field_simp
          · intro _ _
            show next_mass p s = massAt p (s.trace ++ [stepEntry p s]).length
            simp only [List.length_append, List.length_singleton]
            exact next_mass_eq p s s.trace.length ht
          · intro _ hne
            show next_accel p s = ((s.trace ++ [stepEntry p s]).getLast hne).acceleration
            rw [getLast_append_one]
            rfl
    · -- the while condition fails (source line 82)
      rw [step_of_altitude p s h0 ha]
      exact
        { time_i := h.time_i
          accel_i := h.accel_i
          vel_i := h.vel_i
          mass_i := h.mass_i
          alt_i := h.alt_i
          t_run := fun hcon => Option.noConfusion hcon
          alt_run := fun hcon => Option.noConfusion hcon
          mass_run := fun hcon => Option.noConfusion hcon
          t_alt_exit := fun _ => h.t_run h0
          t_brk := fun hcon => by rcases hcon with hc | hc <;> simp at hc
          accel_last := fun _ hne => h.accel_last (by simp [h0]) hne
          hover_facts := fun hcon => by simp at hcon
          depl_facts := fun hcon => by simp at hcon }
  · rw [step_of_exited p s h0]
    exact h

/-- The invariant holds for every reachable state of the simulation. -/
theorem inv_run (p : Params K) (v0 alt0 : K) (hdt : 0 ≤ p.dt) (n : ℕ) :
    Inv p (run p (initState v0 alt0) n) := by
  induction n with
  | zero => exact inv_init p v0 alt0
  | succ n ih => exact inv_step p _ hdt ih

/-! ## The outcome flag -/

/-- `max(0, mass - dry_mass)` is a nonzero float exactly when water remains. -/
theorem water_remaining_ne_zero (p : Params K) (s : LoopState K) :
    water_remaining p s ≠ 0 ↔ p.dry_mass < s.mass := by
  unfold water_remaining
  rcases le_or_lt (s.mass - p.dry_mass) 0 with hle | hlt
  · rw [max_eq_left hle]
    simp only [ne_eq, not_true_eq_false, false_iff, not_lt]
    linarith
  · rw [max_eq_right (le_of_lt hlt)]
    have : p.dry_mass < s.mass := by linarith
    simp only [ne_eq, this, iff_true]
    intro hc
    rw [hc] at hlt
    exact lt_irrefl 0 hlt

/-- The classification of source line 103, unfolded: the outcome is `Hover`
exactly when the final altitude is `≥ 0` and the final mass exceeds the dry
mass. -/
theorem outcome_hover_iff (p : Params K) (s : LoopState K) :
    outcome p s = FlightOutcome.Hover ↔ (0 ≤ s.alt ∧ p.dry_mass < s.mass) := by
  unfold outcome
  by_cases hc : hover p s
  · rw [if_pos hc]
    simp only [true_iff]
    exact ⟨hc.1, (water_remaining_ne_zero p s).mp hc.2⟩
  · rw [if_neg hc]
    simp only [reduceCtorEq, false_iff]
    intro hcon
    exact hc ⟨hcon.1, (water_remaining_ne_zero p s).mpr hcon.2⟩

/-! ## Velocity never decreases when thrust cannot exceed weight -/

/-- If the total thrust is at most `dry_mass * g` then, since the integrated
mass always exceeds the dry mass, every computed acceleration is `≤ 0`:
velocity never drops below its (positive) starting value and the hover
`break` can never fire. -/
theorem run_no_hover (p : Params K) (v0 alt0 : K)
    (hth : p.total_thrust ≤ p.dry_mass * p.g) (hdry : 0 ≤ p.dry_mass)
    (hg : 0 ≤ p.g) (hdt : 0 ≤ p.dt) (hv0 : 0 < v0) (n : ℕ) :
    ¬ (run p (initState v0 alt0) n).exitReason = some ExitReason.hover ∧
      v0 ≤ (run p (initState v0 alt0) n).v := by
  induction n with
  | zero => exact ⟨by simp [run, initState], le_refl v0⟩
  | succ n ih =>
      obtain ⟨ihh, ihv⟩ := ih
      set s := run p (initState v0 alt0) n with hs
      rw [run_succ, ← hs]
      by_cases h0 : s.exitReason = none
      · by_cases ha : 0 < s.alt
        · by_cases hm : next_mass p s ≤ p.dry_mass
          · rw [step_of_depleted p s h0 ha hm]
            exact ⟨by simp, ihv⟩
          · have hmass : p.dry_mass < next_mass p s := lt_of_not_le hm
            have hmpos : 0 < next_mass p s := lt_of_le_of_lt hdry hmass
            have hnum : p.total_thrust - next_mass p s * p.g ≤ 0 := by
              have : p.dry_mass * p.g ≤ next_mass p s * p.g :=
                mul_le_mul_of_nonneg_right (le_of_lt hmass) hg
              linarith
            have haccel : next_accel p s ≤ 0 :=
              div_nonpos_iff.mpr (Or.inr ⟨hnum, le_of_lt hmpos⟩)
            have hvmono : s.v ≤ next_v p s := by
              have : next_accel p s * p.dt ≤ 0 :=
                mul_nonpos_iff.mpr (Or.inr ⟨haccel, hdt⟩)
              simp only [next_v]
              linarith
            have hv : ¬ next_v p s ≤ 0 := by
              have : 0 < next_v p s := lt_of_lt_of_le (lt_of_lt_of_le hv0 ihv) hvmono
              linarith
            rw [step_of_accepted p s h0 ha hm hv]
            exact ⟨by simp, le_trans ihv hvmono⟩
        · rw [step_of_altitude p s h0 ha]
          exact ⟨by simp, ihv⟩
      · rw [step_of_exited p s h0]
        exact ⟨ihh, ihv⟩

/-! ## Termination -/

/-- While the loop keeps running, every completed iteration has passed the
water check: `dry_mass < massAt k` for `1 ≤ k ≤` the number of passes. -/
theorem mass_bound_of_running (p : Params K) (v0 alt0 : K) (hdt : 0 ≤ p.dt)
    (k : ℕ) (h : (run p (initState v0 alt0) k).exitReason = none) (hk : 1 ≤ k) :
    p.dry_mass < massAt p k := by
  have hinv := inv_run p v0 alt0 hdt k
  have hlen := run_length p v0 alt0 k h
  have hik : k - 1 < (run p (initState v0 alt0) k).trace.length := by omega
  have := hinv.mass_i (k - 1) hik
  have hk1 : k - 1 + 1 = k := by omega
  rwa [hk1] at this

/-- With a positive ejection rate and timestep the loop cannot run forever:
some fuel suffices to end it, after which the state is frozen. -/
theorem run_terminates [Archimedean K] (p : Params K) (v0 alt0 : K)
    (hr : 0 < p.total_water_mass_ejection_rate) (hdt : 0 < p.dt) :
    ∃ n, ¬ (run p (initState v0 alt0) n).exitReason = none ∧
      ∀ m, n ≤ m → run p (initState v0 alt0) m = run p (initState v0 alt0) n := by
  have hx : 0 < p.total_water_mass_ejection_rate * p.dt := mul_pos hr hdt
  by_cases hall : ∀ k, (run p (initState v0 alt0) k).exitReason = none
  · exfalso
    obtain ⟨n, hn⟩ := Archimedean.arch (p.wet_mass - p.dry_mass) hx
    rw [nsmul_eq_mul] at hn
    have h1 := mass_bound_of_running p v0 alt0 (le_of_lt hdt) (n + 1)
      (hall (n + 1)) (by omega)
    unfold massAt at h1
    have hcast : ((n + 1 : ℕ) : K) = (n : K) + 1 := by push_cast; ring
    rw [hcast] at h1
    have hmono : (n : K) * (p.total_water_mass_ejection_rate * p.dt)
        < ((n : K) + 1) * (p.total_water_mass_ejection_rate * p.dt) := by
      have : (n : K) < (n : K) + 1 := by linarith
      exact mul_lt_mul_of_pos_right this hx
    nlinarith
  · push_neg at hall
    obtain ⟨n, hn⟩ := hall
    refine ⟨n, hn, fun m hm => ?_⟩
    have := run_absorb p (initState v0 alt0) n hn (m - n)
    rwa [Nat.add_sub_cancel' hm] at this

/-! ## Claim C1 -/

/-- Claim C1: every non-terminal integration step computes the new state from
the previous one in exactly the source order: the time advances by `dt`; the
current mass is `wet_mass - total_water_mass_ejection_rate * t` with the
already-advanced `t` (and the loop moves to the `WaterDepleted` exit, leaving
the trace untouched, when that mass is `≤ dry_mass`); otherwise the
acceleration is `(total_thrust - mass * g) / mass`, the velocity becomes
`v - acceleration * dt`, and the altitude becomes `alt - v * dt` using the
already-updated velocity. -/
theorem C1_step_order (p : Params K) (s : LoopState K)
    (h0 : s.exitReason = none) (ha : 0 < s.alt) :
    next_t p s = s.t + p.dt ∧
    next_mass p s = p.wet_mass - p.total_water_mass_ejection_rate * (s.t + p.dt) ∧
    (next_mass p s ≤ p.dry_mass →
      step p s = { s with t := next_t p s, mass := next_mass p s,
                          exitReason := some ExitReason.waterDepleted }) ∧
    (p.dry_mass < next_mass p s →
      (step p s).accel = (p.total_thrust - next_mass p s * p.g) / next_mass p s ∧
      (step p s).v = s.v - (step p s).accel * p.dt ∧
      (step p s).alt = s.alt - (step p s).v * p.dt ∧
      (step p s).t = s.t + p.dt ∧
      (step p s).mass = next_mass p s) := by
  refine ⟨rfl, rfl, fun hm => step_of_depleted p s h0 ha hm, fun hm => ?_⟩
  have hm2 : ¬ next_mass p s ≤ p.dry_mass := not_le.mpr hm
  by_cases hv : next_v p s ≤ 0
  · rw [step_of_hover p s h0 ha hm2 hv]
    exact ⟨rfl, rfl, rfl, rfl, rfl⟩
  · rw [step_of_accepted p s h0 ha hm2 hv]
    exact ⟨rfl, rfl, rfl, rfl, rfl⟩

/-- Witness for C1: the hypotheses hold and the conclusion is realized at a
concrete state and parameter set. -/
theorem C1_step_order_witness :
    ((initState 5 5 : LoopState ℚ).exitReason = none ∧
      0 < (initState 5 5 : LoopState ℚ).alt) ∧
    (next_t pC1 (initState 5 5) = (initState 5 5 : LoopState ℚ).t + pC1.dt ∧
      next_mass pC1 (initState 5 5)
        = pC1.wet_mass - pC1.total_water_mass_ejection_rate
            * ((initState 5 5 : LoopState ℚ).t + pC1.dt) ∧
      (next_mass pC1 (initState 5 5) ≤ pC1.dry_mass →
        step pC1 (initState 5 5)
          = { (initState 5 5 : LoopState ℚ) with t := next_t pC1 (initState 5 5), mass := next_mass pC1 (initState 5 5), exitReason := some ExitReason.waterDepleted }) ∧
      (pC1.dry_mass < next_mass pC1 (initState 5 5) →
        (step pC1 (initState 5 5)).accel
          = (pC1.total_thrust - next_mass pC1 (initState 5 5) * pC1.g)
              / next_mass pC1 (initState 5 5) ∧
        (step pC1 (initState 5 5)).v
          = (initState 5 5 : LoopState ℚ).v
              - (step pC1 (initState 5 5)).accel * pC1.dt ∧
        (step pC1 (initState 5 5)).alt
          = (initState 5 5 : LoopState ℚ).alt
              - (step pC1 (initState 5 5)).v * pC1.dt ∧
        (step pC1 (initState 5 5)).t = (initState 5 5 : LoopState ℚ).t + pC1.dt ∧
        (step pC1 (initState 5 5)).mass = next_mass pC1 (initState 5 5))) :=
  ⟨⟨rfl, by norm_num [initState]⟩,
    C1_step_order pC1 (initState 5 5) rfl (by norm_num [initState])⟩

/-! ## Claim C2 -/

/-- Claim C2 counterexample: a run whose loop ends because the `while`
condition `current_altitude > 0` fails — the terminating condition is not
`velocity ≤ 0` — yet the final altitude is exactly `0` with water remaining,
so the source's `hover` flag is true and the outcome is reported as `Hover`,
not `Impact` as the claim requires for every non-velocity exit. -/
theorem C2_counterexample :
    (run pC2 (initState 5 5) 2).exitReason = some ExitReason.altitude ∧
    (run pC2 (initState 5 5) 2).alt = 0 ∧
    pC2.dry_mass < (run pC2 (initState 5 5) 2).mass ∧
    outcome pC2 (run pC2 (initState 5 5) 2) = FlightOutcome.Hover := by
  norm_num [pC2, run, step, next_t, next_mass, next_accel, next_v, next_alt,
    initState, stepEntry, outcome, hover, water_remaining]

/-- Claim C2 (amended): the source recomputes the flag from the final state
only: the outcome is `Hover` iff the terminal altitude is `≥ 0` and the
terminal mass exceeds the dry mass (water remaining `> 0`), regardless of
which condition ended the loop.  Water-depletion exits are therefore always
`Impact`, and a velocity exit is `Hover` iff water remains (its altitude is
automatically positive); but an altitude exit that lands exactly on altitude
`0` with water remaining is also classified `Hover`. -/
theorem C2_outcome_rule (p : Params K) (v0 alt0 : K) (hdt : 0 ≤ p.dt) (n : ℕ) :
    (outcome p (run p (initState v0 alt0) n) = FlightOutcome.Hover ↔
      (0 ≤ (run p (initState v0 alt0) n).alt ∧
        p.dry_mass < (run p (initState v0 alt0) n).mass)) ∧
    ((run p (initState v0 alt0) n).exitReason = some ExitReason.waterDepleted →
      outcome p (run p (initState v0 alt0) n) = FlightOutcome.Impact) ∧
    ((run p (initState v0 alt0) n).exitReason = some ExitReason.hover →
      (outcome p (run p (initState v0 alt0) n) = FlightOutcome.Hover ↔
        p.dry_mass < (run p (initState v0 alt0) n).mass)) := by
  have hinv := inv_run p v0 alt0 hdt n
  refine ⟨outcome_hover_iff p _, fun hdep => ?_, fun hh => ?_⟩
  · have hm := (hinv.depl_facts hdep).2
    have hnh : ¬ hover p (run p (initState v0 alt0) n) := fun hc =>
      absurd ((water_remaining_ne_zero p _).mp hc.2) (not_lt.mpr hm)
    unfold outcome
    rw [if_neg hnh]
  · have halt := (hinv.hover_facts hh).2.2.1
    rw [outcome_hover_iff]
    exact ⟨fun hc => hc.2, fun hc => ⟨le_of_lt halt, hc⟩⟩

/-- Witness for the amended C2 at a concrete impact run. -/
theorem C2_outcome_rule_witness :
    (0 : ℚ) ≤ pC2W.dt ∧
    ((outcome pC2W (run pC2W (initState 1 (3/2)) 2) = FlightOutcome.Hover ↔
      (0 ≤ (run pC2W (initState 1 (3/2)) 2).alt ∧
        pC2W.dry_mass < (run pC2W (initState 1 (3/2)) 2).mass)) ∧
    ((run pC2W (initState 1 (3/2)) 2).exitReason = some ExitReason.waterDepleted →
      outcome pC2W (run pC2W (initState 1 (3/2)) 2) = FlightOutcome.Impact) ∧
    ((run pC2W (initState 1 (3/2)) 2).exitReason = some ExitReason.hover →
      (outcome pC2W (run pC2W (initState 1 (3/2)) 2) = FlightOutcome.Hover ↔
        pC2W.dry_mass < (run pC2W (initState 1 (3/2)) 2).mass))) :=
  ⟨by norm_num [pC2W], C2_outcome_rule pC2W 1 (3/2) (by norm_num [pC2W]) 2⟩

/-! ## Claim C3 -/

/-- Claim C3: the derived propulsion and freefall quantities equal their
closed-form expressions — exit velocity `√(2 P / ρ)`, per-nozzle rate
`A v ρ` and thrust `rate · v`, totals scaled by the nozzle count, and
terminal velocity `√(2 m g / (ρ_air Cd A))` with `Cd = 1` — and at the
default configuration (water density 1000, headspace pressure 2600000) the
exit velocity is within `0.01` of `72.11` m/s. -/
theorem C3_derived_quantities :
    (∀ c : Config ℝ,
      water_exit_velocity Real.sqrt c
        = Real.sqrt (2 * c.head_space_pressure / water_density) ∧
      water_mass_ejection_rate Real.pi Real.sqrt c
        = Real.pi * (c.vent_nozzle_diameter / 2) ^ 2
            * water_exit_velocity Real.sqrt c * water_density ∧
      total_water_mass_ejection_rate Real.pi Real.sqrt c
        = water_mass_ejection_rate Real.pi Real.sqrt c * c.number_of_vents ∧
      thrust_per_vent Real.pi Real.sqrt c
        = water_mass_ejection_rate Real.pi Real.sqrt c
            * water_exit_velocity Real.sqrt c ∧
      total_thrust Real.pi Real.sqrt c
        = thrust_per_vent Real.pi Real.sqrt c * c.number_of_vents ∧
      terminal_velocity Real.pi Real.sqrt c
        = Real.sqrt (2 * wet_mass Real.pi c * g
            / (air_density * drag_coefficient * drag_coefficient_area Real.pi c)) ∧
      (drag_coefficient : ℝ) = 1) ∧
    |water_exit_velocity Real.sqrt (defaultConfig : Config ℝ) - 72.11|
      < 1 / 100 := by
  refine ⟨fun c => ⟨rfl, rfl, rfl, rfl, rfl, rfl, rfl⟩, ?_⟩
  have harg : water_exit_velocity Real.sqrt (defaultConfig : Config ℝ)
      = Real.sqrt 5200 := by
    unfold water_exit_velocity defaultConfig water_density
    norm_num
  rw [harg, abs_sub_lt_iff]
  constructor
  · have hub : Real.sqrt 5200 < 72.12 := by
      rw [Real.sqrt_lt' (by norm_num)]
      norm_num
    linarith
  · have hlb : (72.11 : ℝ) < Real.sqrt 5200 := by
      rw [Real.lt_sqrt (by norm_num)]
      norm_num
    linarith

/-! ## Claim C6 -/

/-- Claim C6 counterexample: a configuration whose computed water volume is
negative (headspace volume exceeds tube volume), so the spec-modelled guard
fails with `ConfigurationError` — but the source performs no such check.
Its wet mass is still nonnegative, so both square-root radicands evaluated
before the loop (lines 54 and 59) are nonnegative: `math.sqrt` is defined,
no error of any kind is raised, the simulation starts, and its first pass
simply takes the water-depletion exit because the wet mass (diminished by
the negative water mass) is already below the dry mass. -/
theorem C6_counterexample :
    water_volume Real.pi (badConfig : Config ℝ) < 0 ∧
    checked_water_volume Real.pi (badConfig : Config ℝ)
      = CheckedVolume.configurationError ∧
    0 ≤ wet_mass Real.pi (badConfig : Config ℝ) ∧
    0 ≤ 2 * wet_mass Real.pi (badConfig : Config ℝ) * g
        / (air_density * drag_coefficient
            * drag_coefficient_area Real.pi (badConfig : Config ℝ)) ∧
    0 ≤ 2 * (badConfig : Config ℝ).head_space_pressure / water_density ∧
    (configRun Real.pi Real.sqrt (badConfig : Config ℝ) 1).exitReason
      = some ExitReason.waterDepleted := by
  have hwv : water_volume Real.pi (badConfig : Config ℝ) < 0 := by
    unfold water_volume tube_volume head_space_volume badConfig defaultConfig
    nlinarith [Real.pi_pos]
  have hrate : 0 ≤ total_water_mass_ejection_rate Real.pi Real.sqrt
      (badConfig : Config ℝ) := by
    unfold total_water_mass_ejection_rate water_mass_ejection_rate
      water_exit_velocity water_density badConfig defaultConfig
    positivity
  have hwet : 0 ≤ wet_mass Real.pi (badConfig : Config ℝ) := by
    unfold wet_mass water_mass water_volume tube_volume head_space_volume
      water_density badConfig defaultConfig
    nlinarith [Real.pi_lt_d2, Real.pi_pos]
  have hdenom : 0 < air_density * drag_coefficient
      * drag_coefficient_area Real.pi (badConfig : Config ℝ) := by
    unfold air_density drag_coefficient drag_coefficient_area paddle_area
      badConfig defaultConfig
    positivity
  have hnum : 0 ≤ 2 * wet_mass Real.pi (badConfig : Config ℝ) * g := by
    unfold g
    nlinarith [hwet]
  refine ⟨hwv, by unfold checked_water_volume; rw [if_pos hwv], hwet,
    div_nonneg hnum (le_of_lt hdenom),
    by unfold water_density badConfig defaultConfig; norm_num, ?_⟩
  show (step (simParams Real.pi Real.sqrt (badConfig : Config ℝ))
      (initState (terminal_velocity Real.pi Real.sqrt (badConfig : Config ℝ))
        (badConfig : Config ℝ).venting_altitude)).exitReason
    = some ExitReason.waterDepleted
  have h0 : (initState (terminal_velocity Real.pi Real.sqrt (badConfig : Config ℝ))
      (badConfig : Config ℝ).venting_altitude).exitReason = none := rfl
  have ha : 0 < (initState (terminal_velocity Real.pi Real.sqrt (badConfig : Config ℝ))
      (badConfig : Config ℝ).venting_altitude).alt := by
    show (0 : ℝ) < (badConfig : Config ℝ).venting_altitude
    unfold badConfig defaultConfig
    norm_num
  have hm : next_mass (simParams Real.pi Real.sqrt (badConfig : Config ℝ))
      (initState (terminal_velocity Real.pi Real.sqrt (badConfig : Config ℝ))
        (badConfig : Config ℝ).venting_altitude)
      ≤ (simParams Real.pi Real.sqrt (badConfig : Config ℝ)).dry_mass := by
    simp only [next_mass, next_t, simParams, initState, wet_mass, water_mass,
      water_density]
    nlinarith [hwv, hrate]
  rw [step_of_depleted _ _ h0 ha hm]

/-- Claim C6 (amended): the source raises no `ConfigurationError` at all —
the water volume and everything derived from it are computed unconditionally,
and for a negative water volume whose wet mass is still nonnegative (so that
the square roots at source lines 54 and 59 are defined) the simulation
starts and runs normally, as the counterexample shows; only a negative *wet
mass* stops the program, and then as an unhandled `ValueError` from
`math.sqrt` at line 54, not as the spec's `ConfigurationError`.  The
spec-modelled guarded computation agrees with the source's unconditional one
exactly on the configurations whose water volume is nonnegative. -/
theorem C6_no_configuration_error (c : Config ℝ) :
    checked_water_volume Real.pi c = CheckedVolume.ok (water_volume Real.pi c)
      ↔ 0 ≤ water_volume Real.pi c := by
  unfold checked_water_volume
  by_cases hwv : water_volume Real.pi c < 0
  · rw [if_pos hwv]
    exact iff_of_false (fun hcon => CheckedVolume.noConfusion hcon)
      (not_le.mpr hwv)
  · rw [if_neg hwv]
    exact iff_of_true rfl (not_lt.mp hwv)

/-! ## Claim C4 -/

/-- Claim C4 counterexample: a parameter set with total thrust at most
`wet_mass * g` (here `90 ≤ 10 * 10`) whose run nevertheless decelerates to
hover on the first step: because venting reduces the mass, thrust can exceed
the *current* weight even when it cannot exceed the initial weight.  The
outcome is `Hover`, not `Impact` as the claim requires. -/
theorem C4_counterexample :
    pC4.total_thrust ≤ pC4.wet_mass * pC4.g ∧
    (run pC4 (initState 5 5) 1).exitReason = some ExitReason.hover ∧
    outcome pC4 (run pC4 (initState 5 5) 1) = FlightOutcome.Hover := by
  norm_num [pC4, run, step, next_t, next_mass, next_accel, next_v, next_alt,
    initState, stepEntry, outcome, hover, water_remaining]

/-- Claim C4 (amended): if the total thrust is at most `dry_mass * g` — so
that it can never exceed the current weight, because the integrated mass
always exceeds the dry mass — and the initial velocity is positive, then the
vehicle never decelerates to hover: the velocity never drops below its
initial value, the loop never exits through the `velocity ≤ 0` condition,
and the reported remaining water is (trivially) nonnegative.  The original
bound `wet_mass * g` is insufficient because venting reduces the mass. -/
theorem C4_no_deceleration_to_hover (p : Params K) (v0 alt0 : K)
    (hth : p.total_thrust ≤ p.dry_mass * p.g) (hdry : 0 ≤ p.dry_mass)
    (hg : 0 ≤ p.g) (hdt : 0 ≤ p.dt) (hv0 : 0 < v0) (n : ℕ) :
    ¬ (run p (initState v0 alt0) n).exitReason = some ExitReason.hover ∧
      v0 ≤ (run p (initState v0 alt0) n).v ∧
      0 ≤ water_remaining p (run p (initState v0 alt0) n) :=
  ⟨(run_no_hover p v0 alt0 hth hdry hg hdt hv0 n).1,
    (run_no_hover p v0 alt0 hth hdry hg hdt hv0 n).2,
    le_max_left 0 _⟩

/-- Witness for the amended C4 at a concrete run. -/
theorem C4_no_deceleration_to_hover_witness :
    (pC4W.total_thrust ≤ pC4W.dry_mass * pC4W.g ∧ (0 : ℚ) ≤ pC4W.dry_mass ∧
      (0 : ℚ) ≤ pC4W.g ∧ (0 : ℚ) ≤ pC4W.dt ∧ (0 : ℚ) < 1) ∧
    (¬ (run pC4W (initState 1 20) 3).exitReason = some ExitReason.hover ∧
      (1 : ℚ) ≤ (run pC4W (initState 1 20) 3).v ∧
      0 ≤ water_remaining pC4W (run pC4W (initState 1 20) 3)) :=
  ⟨⟨by norm_num [pC4W], by norm_num [pC4W], by norm_num [pC4W],
      by norm_num [pC4W], by norm_num⟩,
    C4_no_deceleration_to_hover pC4W 1 20 (by norm_num [pC4W])
      (by norm_num [pC4W]) (by norm_num [pC4W]) (by norm_num [pC4W])
      (by norm_num) 3⟩

/-! ## Claim C5 -/

/-- Claim C5 counterexample: an impact run with a non-empty trace.  The loop
ends because the `while` condition fails at re-entry, which does not advance
`t`, so the last trace entry's elapsed time *equals* the terminal state's
time instead of being strictly less. -/
theorem C5_counterexample :
    (run pC5 (initState 1 (3/2)) 2).exitReason = some ExitReason.altitude ∧
    (run pC5 (initState 1 (3/2)) 2).trace ≠ [] ∧
    ((run pC5 (initState 1 (3/2)) 2).trace.map Entry.time).getLast?
      = some (run pC5 (initState 1 (3/2)) 2).t := by
  norm_num [pC5, run, step, next_t, next_mass, next_accel, next_v, next_alt,
    initState, stepEntry]

/-- Claim C5 (amended): for every run with a non-empty trace the last trace
entry's time is at most the terminal time; it is strictly less *exactly*
when the loop ended through a `break` (water depletion or hover, which
advance `t` before breaking), and it is *equal* when the `while` condition
`current_altitude > 0` ended the loop (or the loop is still running), since
loop re-entry does not advance `t`; and the recorded altitudes are strictly
decreasing along the trace (every recorded velocity is positive). -/
theorem C5_trace_monotone (p : Params K) (v0 alt0 : K) (hdt : 0 < p.dt) (n : ℕ) :
    ∀ hne : (run p (initState v0 alt0) n).trace ≠ [],
      ((run p (initState v0 alt0) n).trace.getLast hne).time
          ≤ (run p (initState v0 alt0) n).t ∧
      (((run p (initState v0 alt0) n).trace.getLast hne).time
          < (run p (initState v0 alt0) n).t ↔
        ((run p (initState v0 alt0) n).exitReason = some ExitReason.waterDepleted ∨
          (run p (initState v0 alt0) n).exitReason = some ExitReason.hover)) ∧
      ((run p (initState v0 alt0) n).exitReason = some ExitReason.altitude ∨
          (run p (initState v0 alt0) n).exitReason = none →
        ((run p (initState v0 alt0) n).trace.getLast hne).time
          = (run p (initState v0 alt0) n).t) ∧
      (∀ i (hi : i + 1 < (run p (initState v0 alt0) n).trace.length),
        ((run p (initState v0 alt0) n).trace.get ⟨i + 1, hi⟩).altitude
          < ((run p (initState v0 alt0) n).trace.get
              ⟨i, Nat.lt_of_succ_lt hi⟩).altitude) := by
  intro hne
  have hinv := inv_run p v0 alt0 (le_of_lt hdt) n
  have hL : 1 ≤ (run p (initState v0 alt0) n).trace.length :=
    List.length_pos.mpr hne
  have hlast : ((run p (initState v0 alt0) n).trace.getLast hne).time
      = ((run p (initState v0 alt0) n).trace.length : K) * p.dt := by
    rw [getLast_get]
    rw [hinv.time_i ((run p (initState v0 alt0) n).trace.length - 1)
      (Nat.sub_lt (List.length_pos.mpr hne) one_pos)]
    rw [Nat.cast_sub hL]
    push_cast
    ring_nf
  have hup : ((run p (initState v0 alt0) n).trace.length : K) * p.dt
      < (((run p (initState v0 alt0) n).trace.length : K) + 1) * p.dt := by
    have hexp : (((run p (initState v0 alt0) n).trace.length : K) + 1) * p.dt
        = ((run p (initState v0 alt0) n).trace.length : K) * p.dt + p.dt := by ring
    rw [hexp]
    linarith
  have halts : ∀ i (hi : i + 1 < (run p (initState v0 alt0) n).trace.length),
      ((run p (initState v0 alt0) n).trace.get ⟨i + 1, hi⟩).altitude
        < ((run p (initState v0 alt0) n).trace.get
            ⟨i, Nat.lt_of_succ_lt hi⟩).altitude := by
    intro i hi
    have hv := hinv.vel_i (i + 1) hi
    have halt := hinv.alt_i i hi
    have hpos : 0 < ((run p (initState v0 alt0) n).trace.get ⟨i + 1, hi⟩).velocity
        * p.dt / 10 := div_pos (mul_pos hv hdt) (by norm_num)
    linarith
  rcases hex : (run p (initState v0 alt0) n).exitReason with _ | er
  · have heq : ((run p (initState v0 alt0) n).trace.getLast hne).time
        = (run p (initState v0 alt0) n).t := by
      rw [hlast, hinv.t_run hex]
    refine ⟨le_of_eq heq,
      iff_of_false (by rw [heq]; exact lt_irrefl _) ?_, fun _ => heq, halts⟩
    rintro (hc | hc) <;> exact Option.noConfusion hc
  · cases er with
    | altitude =>
        have heq : ((run p (initState v0 alt0) n).trace.getLast hne).time
            = (run p (initState v0 alt0) n).t := by
          rw [hlast, hinv.t_alt_exit hex]
        refine ⟨le_of_eq heq,
          iff_of_false (by rw [heq]; exact lt_irrefl _) ?_, fun _ => heq, halts⟩
        rintro (hc | hc) <;> simp at hc
    | waterDepleted =>
        have hlt : ((run p (initState v0 alt0) n).trace.getLast hne).time
            < (run p (initState v0 alt0) n).t := by
          rw [hlast, hinv.t_brk (Or.inl hex)]
          exact hup
        refine ⟨le_of_lt hlt, iff_of_true hlt (Or.inl rfl), fun hc => ?_, halts⟩
        rcases hc with hc | hc <;> simp at hc
    | hover =>
        have hlt : ((run p (initState v0 alt0) n).trace.getLast hne).time
            < (run p (initState v0 alt0) n).t := by
          rw [hlast, hinv.t_brk (Or.inr hex)]
          exact hup
        refine ⟨le_of_lt hlt, iff_of_true hlt (Or.inr rfl), fun hc => ?_, halts⟩
        rcases hc with hc | hc <;> simp at hc

/-- Witness for the amended C5 at a concrete water-depletion run. -/
theorem C5_trace_monotone_witness :
    (0 : ℚ) < pC5W.dt ∧
    (((run pC5W (initState 1 100) 2).trace.getLast
          (by norm_num [pC5W, run, step, next_t, next_mass, next_accel, next_v,
            next_alt, initState, stepEntry])).time
        ≤ (run pC5W (initState 1 100) 2).t ∧
      (((run pC5W (initState 1 100) 2).trace.getLast
            (by norm_num [pC5W, run, step, next_t, next_mass, next_accel, next_v,
              next_alt, initState, stepEntry])).time
          < (run pC5W (initState 1 100) 2).t ↔
        ((run pC5W (initState 1 100) 2).exitReason = some ExitReason.waterDepleted ∨
          (run pC5W (initState 1 100) 2).exitReason = some ExitReason.hover)) ∧
      ((run pC5W (initState 1 100) 2).exitReason = some ExitReason.altitude ∨
          (run pC5W (initState 1 100) 2).exitReason = none →
        ((run pC5W (initState 1 100) 2).trace.getLast
            (by norm_num [pC5W, run, step, next_t, next_mass, next_accel, next_v,
              next_alt, initState, stepEntry])).time
          = (run pC5W (initState 1 100) 2).t) ∧
      (∀ i (hi : i + 1 < (run pC5W (initState 1 100) 2).trace.length),
        ((run pC5W (initState 1 100) 2).trace.get ⟨i + 1, hi⟩).altitude
          < ((run pC5W (initState 1 100) 2).trace.get
              ⟨i, Nat.lt_of_succ_lt hi⟩).altitude)) :=
  ⟨by norm_num [pC5W],
    C5_trace_monotone pC5W 1 100 (by norm_num [pC5W]) 2
      (by norm_num [pC5W, run, step, next_t, next_mass, next_accel, next_v,
        next_alt, initState, stepEntry])⟩

/-! ## Claim C7 -/

/-- Claim C7: with a positive total ejection rate and a positive timestep the
loop always terminates after finitely many iterations, with no iteration cap
needed: were it still running, the elapsed time would grow by `dt` each pass
while every completed pass requires
`wet_mass - rate * t > dry_mass`, which fails once
`t > (wet_mass - dry_mass) / rate`; once ended, the state never changes. -/
theorem C7_termination [Archimedean K] (p : Params K) (v0 alt0 : K)
    (hr : 0 < p.total_water_mass_ejection_rate) (hdt : 0 < p.dt) :
    (∃ n, ¬ (run p (initState v0 alt0) n).exitReason = none ∧
      ∀ m, n ≤ m → run p (initState v0 alt0) m = run p (initState v0 alt0) n) ∧
    (∀ k, 1 ≤ k → (run p (initState v0 alt0) k).exitReason = none →
      (run p (initState v0 alt0) k).t * p.total_water_mass_ejection_rate
        < p.wet_mass - p.dry_mass) := by
  refine ⟨run_terminates p v0 alt0 hr hdt, fun k hk hnone => ?_⟩
  have hmass := mass_bound_of_running p v0 alt0 (le_of_lt hdt) k hnone hk
  have ht := (inv_run p v0 alt0 (le_of_lt hdt) k).t_run hnone
  rw [run_length p v0 alt0 k hnone] at ht
  rw [ht]
  unfold massAt at hmass
  nlinarith

/-- Witness for C7 at a concrete run that depletes its water. -/
theorem C7_termination_witness :
    (0 : ℚ) < pC7W.total_water_mass_ejection_rate ∧ (0 : ℚ) < pC7W.dt ∧
    ((∃ n, ¬ (run pC7W (initState 1 50) n).exitReason = none ∧
      ∀ m, n ≤ m → run pC7W (initState 1 50) m = run pC7W (initState 1 50) n) ∧
    (∀ k, 1 ≤ k → (run pC7W (initState 1 50) k).exitReason = none →
      (run pC7W (initState 1 50) k).t * pC7W.total_water_mass_ejection_rate
        < pC7W.wet_mass - pC7W.dry_mass)) :=
  ⟨by norm_num [pC7W], by norm_num [pC7W],
    C7_termination pC7W 1 50 (by norm_num [pC7W]) (by norm_num [pC7W])⟩

/-! ## Claim C8 -/

/-- Claim C8 counterexample: the trace entry appended by an accepted step does
not record that step's altitude or remaining water mass — it records both
divided by `10` (the plot-scale normalization of source lines 97 and 99).
Here the step's altitude is `7` and remaining water is `8`, but the entry
stores `7/10` and `4/5`. -/
theorem C8_counterexample :
    (run pC8 (initState 1 9) 1).alt = 7 ∧
    (run pC8 (initState 1 9) 1).mass - pC8.dry_mass = 8 ∧
    ((run pC8 (initState 1 9) 1).trace.map Entry.altitude) = [7/10] ∧
    ((run pC8 (initState 1 9) 1).trace.map Entry.water_remaining) = [4/5] ∧
    (7 : ℚ)/10 ≠ 7 ∧ (4 : ℚ)/5 ≠ 8 := by
  norm_num [pC8, run, step, next_t, next_mass, next_accel, next_v, next_alt,
    initState, stepEntry]

/-- Claim C8 (amended): every accepted integration step appends exactly one
entry, whose fields are that step's elapsed time, altitude divided by `10`,
velocity, clamped remaining water mass divided by `10`, and acceleration; a
run still going after `n` passes has exactly `n` entries; the `k`-th entry
(counting from `1`) has elapsed time exactly `k * dt`; and entry times are
strictly increasing. -/
theorem C8_trace_entries (p : Params K) (v0 alt0 : K) (hdt : 0 < p.dt) (n : ℕ) :
    ((run p (initState v0 alt0) (n + 1)).exitReason = none →
      (run p (initState v0 alt0) (n + 1)).trace
        = (run p (initState v0 alt0) n).trace
            ++ [stepEntry p (run p (initState v0 alt0) n)]) ∧
    ((run p (initState v0 alt0) n).exitReason = none →
      (run p (initState v0 alt0) n).trace.length = n) ∧
    (∀ i (h : i < (run p (initState v0 alt0) n).trace.length),
      ((run p (initState v0 alt0) n).trace.get ⟨i, h⟩).time
        = ((i : K) + 1) * p.dt) ∧
    (∀ i (h : i + 1 < (run p (initState v0 alt0) n).trace.length),
      ((run p (initState v0 alt0) n).trace.get ⟨i, Nat.lt_of_succ_lt h⟩).time
        < ((run p (initState v0 alt0) n).trace.get ⟨i + 1, h⟩).time) := by
  have hinv := inv_run p v0 alt0 (le_of_lt hdt) n
  refine ⟨fun h => ?_, run_length p v0 alt0 n, hinv.time_i, fun i h => ?_⟩
  · rw [run_succ] at h ⊢
    exact (step_running_elim p (run p (initState v0 alt0) n) h).2
  · rw [hinv.time_i i (Nat.lt_of_succ_lt h), hinv.time_i (i + 1) h]
    have hexp : (((i + 1 : ℕ) : K) + 1) * p.dt = ((i : K) + 1) * p.dt + p.dt := by
      push_cast
      ring
    rw [hexp]
    linarith

/-- Witness for the amended C8 at a concrete two-step run. -/
theorem C8_trace_entries_witness :
    (0 : ℚ) < pC8W.dt ∧
    ((run pC8W (initState 1 100) 2).exitReason = none →
      (run pC8W (initState 1 100) 2).trace
        = (run pC8W (initState 1 100) 1).trace
            ++ [stepEntry pC8W (run pC8W (initState 1 100) 1)]) ∧
    ((run pC8W (initState 1 100) 1).exitReason = none →
      (run pC8W (initState 1 100) 1).trace.length = 1) ∧
    (∀ i (h : i < (run pC8W (initState 1 100) 1).trace.length),
      ((run pC8W (initState 1 100) 1).trace.get ⟨i, h⟩).time
        = ((i : ℚ) + 1) * pC8W.dt) ∧
    (∀ i (h : i + 1 < (run pC8W (initState 1 100) 1).trace.length),
      ((run pC8W (initState 1 100) 1).trace.get ⟨i, Nat.lt_of_succ_lt h⟩).time
        < ((run pC8W (initState 1 100) 1).trace.get ⟨i + 1, h⟩).time) :=
  ⟨by norm_num [pC8W],
    (C8_trace_entries pC8W 1 100 (by norm_num [pC8W]) 1).1,
    (C8_trace_entries pC8W 1 100 (by norm_num [pC8W]) 1).2.1,
    (C8_trace_entries pC8W 1 100 (by norm_num [pC8W]) 1).2.2.1,
    (C8_trace_entries pC8W 1 100 (by norm_num [pC8W]) 1).2.2.2⟩

/-! ## Claim C9 -/

/-- Claim C9: with positive total thrust, positive ejection rate, positive
timestep and nonnegative dry mass, the recorded acceleration strictly
increases from each accepted step to the next: thrust is constant while the
current mass strictly decreases yet stays above the dry mass, so
`(thrust - mass * g) / mass = thrust / mass - g` grows. -/
theorem C9_accel_increasing (p : Params K) (v0 alt0 : K) (hdt : 0 < p.dt)
    (hr : 0 < p.total_water_mass_ejection_rate) (hth : 0 < p.total_thrust)
    (hdry : 0 ≤ p.dry_mass) (n : ℕ) :
    ∀ i (h : i + 1 < (run p (initState v0 alt0) n).trace.length),
      ((run p (initState v0 alt0) n).trace.get
          ⟨i, Nat.lt_of_succ_lt h⟩).acceleration
        < ((run p (initState v0 alt0) n).trace.get ⟨i + 1, h⟩).acceleration := by
  intro i h
  have hinv := inv_run p v0 alt0 (le_of_lt hdt) n
  rw [hinv.accel_i i (Nat.lt_of_succ_lt h), hinv.accel_i (i + 1) h]
  have hm1 : p.dry_mass < massAt p (i + 1) := hinv.mass_i i (Nat.lt_of_succ_lt h)
  have hm2 : p.dry_mass < massAt p (i + 1 + 1) := hinv.mass_i (i + 1) h
  have hm1pos : 0 < massAt p (i + 1) := lt_of_le_of_lt hdry hm1
  have hm2pos : 0 < massAt p (i + 1 + 1) := lt_of_le_of_lt hdry hm2
  have hlt : massAt p (i + 1 + 1) < massAt p (i + 1) := by
    unfold massAt
    have hstep : ((i + 1 : ℕ) : K) * p.dt < ((i + 1 + 1 : ℕ) : K) * p.dt := by
      push_cast
      nlinarith
    nlinarith
  unfold accelAt
  rw [div_lt_div_iff₀ hm1pos hm2pos]
  nlinarith

/-- Witness for C9 at a concrete three-step run. -/
theorem C9_accel_increasing_witness :
    ((0 : ℚ) < pC9W.dt ∧ (0 : ℚ) < pC9W.total_water_mass_ejection_rate ∧
      (0 : ℚ) < pC9W.total_thrust ∧ (0 : ℚ) ≤ pC9W.dry_mass) ∧
    ((run pC9W (initState 10 1000) 3).trace.get
        ⟨0, by norm_num [pC9W, run, step, next_t, next_mass, next_accel, next_v,
          next_alt, initState, stepEntry]⟩).acceleration
      < ((run pC9W (initState 10 1000) 3).trace.get
          ⟨1, by norm_num [pC9W, run, step, next_t, next_mass, next_accel, next_v,
            next_alt, initState, stepEntry]⟩).acceleration :=
  ⟨⟨by norm_num [pC9W], by norm_num [pC9W], by norm_num [pC9W],
      by norm_num [pC9W]⟩,
    C9_accel_increasing pC9W 10 1000 (by norm_num [pC9W]) (by norm_num [pC9W])
      (by norm_num [pC9W]) (by norm_num [pC9W]) 3 0
      (by norm_num [pC9W, run, step, next_t, next_mass, next_accel, next_v,
        next_alt, initState, stepEntry])⟩

/-! ## Claim C10 -/

/-- Claim C10: the peak deceleration reported after the loop is
`acceleration / g` for the acceleration computed by the last iteration that
reached the force computation: on a hover exit that is the exiting
iteration's own acceleration (computed from its mass), even though that same
iteration's updates ended the loop; on every other exit it is the last trace
entry's acceleration, provided at least one iteration reached the force
computation (the trace is non-empty). -/
theorem C10_peak_deceleration (p : Params K) (v0 alt0 : K) (hdt : 0 ≤ p.dt)
    (n : ℕ) :
    ((run p (initState v0 alt0) n).exitReason = some ExitReason.hover →
      peak_deceleration_report p (run p (initState v0 alt0) n)
        = ((p.total_thrust - (run p (initState v0 alt0) n).mass * p.g)
            / (run p (initState v0 alt0) n).mass) / p.g) ∧
    (¬ (run p (initState v0 alt0) n).exitReason = some ExitReason.hover →
      ∀ hne : (run p (initState v0 alt0) n).trace ≠ [],
        peak_deceleration_report p (run p (initState v0 alt0) n)
          = ((run p (initState v0 alt0) n).trace.getLast hne).acceleration
              / p.g) := by
  have hinv := inv_run p v0 alt0 hdt n
  refine ⟨fun hh => ?_, fun hnh hne => ?_⟩
  · unfold peak_deceleration_report
    rw [(hinv.hover_facts hh).1]
  · unfold peak_deceleration_report
    rw [hinv.accel_last hnh hne]

/-- Witness for C10 at a concrete hover run. -/
theorem C10_peak_deceleration_witness :
    (0 : ℚ) ≤ pC10W.dt ∧
    ((run pC10W (initState 5 5) 1).exitReason = some ExitReason.hover →
      peak_deceleration_report pC10W (run pC10W (initState 5 5) 1)
        = ((pC10W.total_thrust - (run pC10W (initState 5 5) 1).mass * pC10W.g)
            / (run pC10W (initState 5 5) 1).mass) / pC10W.g) ∧
    (¬ (run pC10W (initState 5 5) 1).exitReason = some ExitReason.hover →
      ∀ hne : (run pC10W (initState 5 5) 1).trace ≠ [],
        peak_deceleration_report pC10W (run pC10W (initState 5 5) 1)
          = ((run pC10W (initState 5 5) 1).trace.getLast hne).acceleration
              / pC10W.g) :=
  ⟨by norm_num [pC10W],
    (C10_peak_deceleration pC10W 5 5 (by norm_num [pC10W]) 1).1,
    (C10_peak_deceleration pC10W 5 5 (by norm_num [pC10W]) 1).2⟩

end Wiperr
